import Mathlib

/-!
Verification of the SizeScorer logic of the sizoor repository
(`packages/nextjs/components/ContractSizeChecker.tsx`).

The repository contains two variants of the `ContractSizeChecker` component:

* Variant A (history variant): computes `size` and `percentageOfLimit` only,
  keeps a deduplicated, capped history list.
* Variant B (score variant): additionally computes a piecewise
  `optimizationScore` and clamps `percentageOfLimit` above the 128KB limit.

JavaScript numbers are modelled as rationals (`ℚ`); every arithmetic
operation appearing in the claims is exact at the relevant inputs.
The asynchronous `getCode` provider call is modelled by passing its result
(`Except String (Option String)`: a provider error, or the returned
bytecode which may be absent) as an explicit argument.
-/

namespace Sizoor

namespace VariantB

/-- The `ContractSizeData` interface of the score variant. -/
structure ContractSizeData where
  size : ℚ
  percentageOfLimit : ℚ
  optimizationScore : ℚ
deriving DecidableEq

/-- `const lowerLimit = 100`. -/
def lowerLimit : ℚ := 100

/-- `const upperLimit = 128`. -/
def upperLimit : ℚ := 128

/-- Band formula for `sizeInKB < 5`: `5 + (sizeInKB / 5) * 5`. -/
def scoreTiny (sizeInKB : ℚ) : ℚ := 5 + sizeInKB / 5 * 5

/-- Band formula for `5 ≤ sizeInKB < 20`: `10 + ((sizeInKB - 5) / 15) * 15`. -/
def scoreSmall (sizeInKB : ℚ) : ℚ := 10 + (sizeInKB - 5) / 15 * 15

/-- Band formula for `20 ≤ sizeInKB ≤ 100`: `25 + ((sizeInKB - 20) / 80) * 53`. -/
def scoreMedium (sizeInKB : ℚ) : ℚ := 25 + (sizeInKB - 20) / 80 * 53

/-- Band formula for `100 < sizeInKB ≤ 128`:
`rangePosition = (sizeInKB - lowerLimit) / (upperLimit - lowerLimit)` and
score `78 + rangePosition * 22`. -/
def scoreUpper (sizeInKB : ℚ) : ℚ :=
  78 + (sizeInKB - lowerLimit) / (upperLimit - lowerLimit) * 22

/-- The if/else-if chain of `getContractSize` computing
`(percentageOfLimit, optimizationScore)` from `sizeInKB`. -/
def scorePair (sizeInKB : ℚ) : ℚ × ℚ :=
  if sizeInKB ≤ lowerLimit then
    (sizeInKB / upperLimit * 100,
      if sizeInKB < 5 then scoreTiny sizeInKB
      else if sizeInKB < 20 then scoreSmall sizeInKB
      else scoreMedium sizeInKB)
  else if sizeInKB ≤ upperLimit then
    (sizeInKB / upperLimit * 100, scoreUpper sizeInKB)
  else
    (100, 0)

/-- The percentage component of the score variant. -/
def percentageOf (sizeInKB : ℚ) : ℚ := (scorePair sizeInKB).1

/-- The optimization-score component of the score variant. -/
def optimizationScoreOf (sizeInKB : ℚ) : ℚ := (scorePair sizeInKB).2

/-- `sizeInKB` from the bytecode hex-string length:
`sizeInBytes = (bytecode.length - 2) / 2`, `sizeInKB = sizeInBytes / 1024`. -/
def sizeKBOfLen (bytecodeLen : Nat) : ℚ := ((bytecodeLen : ℚ) - 2) / 2 / 1024

/-- The report built by the score variant from the bytecode length. -/
def computeSize (bytecodeLen : Nat) : ContractSizeData :=
  let sizeInKB := sizeKBOfLen bytecodeLen
  { size := sizeInKB
    percentageOfLimit := (scorePair sizeInKB).1
    optimizationScore := (scorePair sizeInKB).2 }

/-- Message shown when `contractSize.size > 128`. -/
def exceedsMsg : String :=
  "Your contract exceeds the EVM size limit of 128KB. You need to optimize or split your contract."

/-- Message shown when `contractSize.size <= 128 && contractSize.size >= 100`
(apostrophes of the JSX text elided). -/
def optimalMsg : String :=
  "Your contract is optimally sized! It is within the ideal range of 100-128KB, making efficient use of the contract size while staying under the limit."

/-- Sub-note additionally shown when `contractSize.size >= 114`. -/
def excellentMsg : String :=
  "Excellent optimization: Your contract is very close to the maximum efficient size, but you can still add more functionality while staying under the limit."

/-- Message for `contractSize.size < 5` (size interpolation elided). -/
def tinyMsg : String := "This contract is extremely smol!"

/-- Message for `5 ≤ contractSize.size < 20`. -/
def smallMsg : String :=
  "Your contract is quite smol. There is significant room to add more functionality while staying well below the 128KB limit."

/-- Message for `20 ≤ contractSize.size < 100`. -/
def belowOptimalMsg : String :=
  "Your contract is smaller than the optimal range vs 100-128KB. You could add more features while still staying under the 128KB limit."

/-- The recommendation texts rendered by the score variant, in JSX order. -/
def recommendationMessages (size : ℚ) : List String :=
  (if 128 < size then [exceedsMsg] else []) ++
  (if size ≤ 128 ∧ 100 ≤ size then
    [optimalMsg] ++ (if 114 ≤ size then [excellentMsg] else [])
  else []) ++
  (if size < 100 then
    [if size < 5 then tinyMsg else if size < 20 then smallMsg else belowOptimalMsg]
  else [])

/-- The score-driven step chain of the score variant's `getGradientClass`. -/
def gradientSteps (score : ℚ) : String :=
  if score < 10 then "bg-gradient-to-r from-red-400 to-red-300"
  else if score < 25 then "bg-gradient-to-r from-red-300 to-orange-400"
  else if score < 50 then "bg-gradient-to-r from-orange-400 to-yellow-500"
  else if score < 78 then "bg-gradient-to-r from-yellow-500 to-blue-500"
  else if score < 90 then "bg-gradient-to-r from-blue-500 to-green-500"
  else "bg-gradient-to-r from-green-500 to-emerald-600"

/-- `getGradientClass` of the score variant: the over-limit check reads the
component's `contractSize` state, the remaining bands read the score. -/
def getGradientClass (contractSize : Option ContractSizeData) (score : ℚ) : String :=
  match contractSize with
  | some cs =>
    if 128 < cs.size then "bg-gradient-to-r from-red-500 to-red-700"
    else gradientSteps score
  | none => gradientSteps score

/-- The `getContractSize` pipeline of the score variant up to `setContractSize`.
`hasClient` is whether `publicClient` is non-null; `fetch` is the outcome of
`publicClient.getCode` (provider error, or the bytecode which may be absent). -/
def getContractSize (hasClient : Bool) (address : String)
    (fetch : Except String (Option String)) : Except String ContractSizeData :=
  if hasClient = false then Except.error "No public client found"
  else if address = "" ∨ address.length ≠ 42 then
    Except.error "Please enter a valid Ethereum address"
  else
    match fetch with
    | Except.error msg => Except.error msg
    | Except.ok none => Except.error "No contract found at this address"
    | Except.ok (some bytecode) =>
      if bytecode = "" ∨ bytecode = "0x" then
        Except.error "No contract found at this address"
      else Except.ok (computeSize bytecode.length)

end VariantB

namespace VariantA

/-- The `ContractSizeData` interface of the history variant. -/
structure ContractSizeData where
  size : ℚ
  percentageOfLimit : ℚ
deriving DecidableEq

/-- `const upperLimit = 128`. -/
def upperLimit : ℚ := 128

/-- `percentageOfLimit = (sizeInKB / upperLimit) * 100`, unconditional. -/
def percentageOf (sizeInKB : ℚ) : ℚ := sizeInKB / upperLimit * 100

/-- The report built by the history variant from the bytecode length:
`sizeInBytes = (bytecode.length - 2) / 2`, `sizeInKB = sizeInBytes / 1024`. -/
def computeSize (bytecodeLen : Nat) : ContractSizeData :=
  let sizeInKB := ((bytecodeLen : ℚ) - 2) / 2 / 1024
  { size := sizeInKB, percentageOfLimit := percentageOf sizeInKB }

/-- The `HistoryItem` interface. -/
structure HistoryItem where
  address : String
  data : ContractSizeData
  timestamp : Nat
deriving DecidableEq

/-- JavaScript `String.prototype.toLowerCase`, character-wise (structural so
that it evaluates; equivalent to `String.toLower` on the addresses here). -/
def toLowerCase (s : String) : String := String.mk (s.data.map Char.toLower)

/-- JavaScript `prev.findIndex(item => item.address.toLowerCase() ===
address.toLowerCase())`: first matching index, `-1` when absent. -/
def findIndexByAddress (address : String) : List HistoryItem → Int
  | [] => -1
  | item :: rest =>
    if toLowerCase item.address == toLowerCase address then 0
    else
      let r := findIndexByAddress address rest
      if r = -1 then -1 else r + 1

/-- The `setHistory` updater: replace the matching entry in place, otherwise
prepend and keep the 10 most recent. -/
def addToHistory (prev : List HistoryItem) (historyItem : HistoryItem) :
    List HistoryItem :=
  let existingIndex := findIndexByAddress historyItem.address prev
  if 0 ≤ existingIndex then prev.set existingIndex.toNat historyItem
  else ((historyItem :: prev).take 10)

/-- Submitting a sequence of results in order, oldest first. -/
def submitAll (prev : List HistoryItem) (items : List HistoryItem) :
    List HistoryItem :=
  items.foldl addToHistory prev

/-- A concrete sequence of 11 submissions with pairwise-distinct addresses,
used as a test vector for the history cap. -/
def elevenItems : List HistoryItem :=
  (List.range 11).map fun (i : ℕ) =>
    { address := "0xa" ++ toString i
      data := { size := (i : ℚ), percentageOfLimit := (i : ℚ) }
      timestamp := i }

/-- The `getContractSize` pipeline of the history variant up to
`setContractSize`, modelled like the score variant's. -/
def getContractSize (hasClient : Bool) (address : String)
    (fetch : Except String (Option String)) : Except String ContractSizeData :=
  if hasClient = false then Except.error "No public client found"
  else if address = "" ∨ address.length ≠ 42 then
    Except.error "Please enter a valid EVM address"
  else
    match fetch with
    | Except.error msg => Except.error msg
    | Except.ok none => Except.error "No contract found at this address"
    | Except.ok (some bytecode) =>
      if bytecode = "" ∨ bytecode = "0x" then
        Except.error "No contract found at this address"
      else Except.ok (computeSize bytecode.length)

/-- The `catch` / success handling at the call site: on success the report is
set and the error stays cleared, on any error the message is surfaced and the
prior report is cleared. Returns `(contractSize, error)`. -/
def applyOutcome (r : Except String ContractSizeData) :
    Option ContractSizeData × Option String :=
  match r with
  | Except.ok d => (some d, none)
  | Except.error msg => (none, some msg)

end VariantA

/-- JavaScript `toFixed(1)` for the non-negative values rendered here:
round half away from zero to one decimal place. -/
def toFixed1 (q : ℚ) : ℚ := (⌊q * 10 + 1 / 2⌋ : ℤ) / 10

end Sizoor

namespace Sizoor

/-- C1: for every sizeKB in [0,100], both variants compute
`percentageOfLimit = (sizeKB / 128) * 100`: Variant A for all sizeKB, and
Variant B in its `sizeKB ≤ 100` branch. -/
theorem C1_percentage_formula (s : ℚ) (h0 : 0 ≤ s) (h1 : s ≤ 100) :
    VariantA.percentageOf s = s / 128 * 100 ∧
    VariantB.percentageOf s = s / 128 * 100 := by
  constructor
  · norm_num [VariantA.percentageOf, VariantA.upperLimit]
  · have hb : s ≤ VariantB.lowerLimit := by
      simpa [VariantB.lowerLimit] using h1
    simp [VariantB.percentageOf, VariantB.scorePair, hb, VariantB.upperLimit]

theorem C1_percentage_formula_witness :
    VariantA.percentageOf 64 = 64 / 128 * 100 ∧
    VariantB.percentageOf 64 = 64 / 128 * 100 :=
  C1_percentage_formula 64 (by norm_num) (by norm_num)

/-- C2: for every sizeKB strictly above 128, Variant B returns
`optimizationScore = 0` and `percentageOfLimit = 100` exactly. -/
theorem C2_over_limit (s : ℚ) (h : 128 < s) :
    VariantB.optimizationScoreOf s = 0 ∧ VariantB.percentageOf s = 100 := by
  have h1 : ¬ s ≤ VariantB.lowerLimit := by
    simp only [VariantB.lowerLimit]; linarith
  have h2 : ¬ s ≤ VariantB.upperLimit := by
    simp only [VariantB.upperLimit]; linarith
  simp [VariantB.optimizationScoreOf, VariantB.percentageOf, VariantB.scorePair,
    h1, h2]

theorem C2_over_limit_witness :
    VariantB.optimizationScoreOf 200 = 0 ∧ VariantB.percentageOf 200 = 100 :=
  C2_over_limit 200 (by norm_num)

/-- C3: Variant B's piecewise score is continuous at each band boundary:
the formulas on either side of 5 both give 10, on either side of 20 both
give 25, and on either side of 100 both give 78. -/
theorem C3_boundary_continuity :
    VariantB.scoreTiny 5 = 10 ∧ VariantB.scoreSmall 5 = 10 ∧
    VariantB.scoreSmall 20 = 25 ∧ VariantB.scoreMedium 20 = 25 ∧
    VariantB.scoreMedium 100 = 78 ∧ VariantB.scoreUpper 100 = 78 := by
  norm_num [VariantB.scoreTiny, VariantB.scoreSmall, VariantB.scoreMedium,
    VariantB.scoreUpper, VariantB.lowerLimit, VariantB.upperLimit]

/-- C4: Variant B's score at 0 is 5, the score is monotonically
non-decreasing over [0,128], and for every non-negative sizeKB both the
score and the (clamped) percentage lie within [0,100]. -/
theorem C4_score_shape (a b s : ℚ) (h0 : 0 ≤ a) (hab : a ≤ b) (hb : b ≤ 128)
    (hs : 0 ≤ s) :
    VariantB.optimizationScoreOf 0 = 5 ∧
    VariantB.optimizationScoreOf a ≤ VariantB.optimizationScoreOf b ∧
    (0 ≤ VariantB.optimizationScoreOf s ∧ VariantB.optimizationScoreOf s ≤ 100) ∧
    (0 ≤ VariantB.percentageOf s ∧ VariantB.percentageOf s ≤ 100) := by
  refine ⟨?_, ?_, ⟨?_, ?_⟩, ⟨?_, ?_⟩⟩
  · norm_num [VariantB.optimizationScoreOf, VariantB.scorePair,
      VariantB.lowerLimit, VariantB.scoreTiny]
  · simp only [VariantB.optimizationScoreOf, VariantB.scorePair,
      VariantB.lowerLimit, VariantB.upperLimit, VariantB.scoreTiny,
      VariantB.scoreSmall, VariantB.scoreMedium, VariantB.scoreUpper]
    split_ifs <;> simp <;> linarith
  · simp only [VariantB.optimizationScoreOf, VariantB.scorePair,
      VariantB.lowerLimit, VariantB.upperLimit, VariantB.scoreTiny,
      VariantB.scoreSmall, VariantB.scoreMedium, VariantB.scoreUpper]
    split_ifs <;> simp <;> linarith
  · simp only [VariantB.optimizationScoreOf, VariantB.scorePair,
      VariantB.lowerLimit, VariantB.upperLimit, VariantB.scoreTiny,
      VariantB.scoreSmall, VariantB.scoreMedium, VariantB.scoreUpper]
    split_ifs <;> simp <;> linarith
  · simp only [VariantB.percentageOf, VariantB.scorePair,
      VariantB.lowerLimit, VariantB.upperLimit]
    split_ifs <;> simp <;> linarith
  · simp only [VariantB.percentageOf, VariantB.scorePair,
      VariantB.lowerLimit, VariantB.upperLimit]
    split_ifs <;> simp <;> linarith

theorem C4_score_shape_witness :
    VariantB.optimizationScoreOf 0 = 5 ∧
    VariantB.optimizationScoreOf 10 ≤ VariantB.optimizationScoreOf 110 ∧
    (0 ≤ VariantB.optimizationScoreOf 150 ∧
      VariantB.optimizationScoreOf 150 ≤ 100) ∧
    (0 ≤ VariantB.percentageOf 150 ∧ VariantB.percentageOf 150 ≤ 100) :=
  C4_score_shape 10 110 150 (by norm_num) (by norm_num) (by norm_num)
    (by norm_num)

/-- C5: a bytecode hex string of length `2 + 2*1024*114` gives sizeKB
exactly 114, percentage rendering to 89.1, score exactly 89, the
blue-to-green "100-114KB" gradient band, and the optimal recommendation
together with the excellent sub-note. -/
theorem C5_example_114KB :
    (VariantB.computeSize (2 + 2 * 1024 * 114)).size = 114 ∧
    toFixed1 (VariantB.computeSize (2 + 2 * 1024 * 114)).percentageOfLimit =
      891 / 10 ∧
    (VariantB.computeSize (2 + 2 * 1024 * 114)).optimizationScore = 89 ∧
    VariantB.getGradientClass (some (VariantB.computeSize (2 + 2 * 1024 * 114)))
      (VariantB.computeSize (2 + 2 * 1024 * 114)).optimizationScore =
      "bg-gradient-to-r from-blue-500 to-green-500" ∧
    VariantB.recommendationMessages
      (VariantB.computeSize (2 + 2 * 1024 * 114)).size =
      [VariantB.optimalMsg, VariantB.excellentMsg] := by
  have hsize : VariantB.sizeKBOfLen (2 + 2 * 1024 * 114) = 114 := by
    norm_num [VariantB.sizeKBOfLen]
  have hcs : VariantB.computeSize (2 + 2 * 1024 * 114) =
      { size := 114, percentageOfLimit := 114 / 128 * 100,
        optimizationScore := 89 } := by
    simp only [VariantB.computeSize, hsize]
    norm_num [VariantB.scorePair, VariantB.lowerLimit, VariantB.upperLimit,
      VariantB.scoreUpper]
  refine ⟨?_, ?_, ?_, ?_, ?_⟩
  · rw [hcs]
  · rw [hcs]
    norm_num [toFixed1]
  · rw [hcs]
  · rw [hcs]
    norm_num [VariantB.getGradientClass, VariantB.gradientSteps]
  · rw [hcs]
    norm_num [VariantB.recommendationMessages]

/-- Helper: JavaScript `findIndex` returns `-1` when no entry matches. -/
theorem findIndexByAddress_of_not_mem (target : String)
    (l : List VariantA.HistoryItem)
    (h : ∀ it ∈ l,
      VariantA.toLowerCase it.address ≠ VariantA.toLowerCase target) :
    VariantA.findIndexByAddress target l = -1 := by
  induction l with
  | nil => rfl
  | cons x xs ih =>
    have hx : (VariantA.toLowerCase x.address ==
        VariantA.toLowerCase target) = false := by
      simpa using h x (List.mem_cons_self x xs)
    simp [VariantA.findIndexByAddress, hx,
      ih fun it hit => h it (List.mem_cons_of_mem x hit)]

/-- Helper: a result for a fresh address is prepended and the list capped. -/
theorem addToHistory_of_not_mem (prev : List VariantA.HistoryItem)
    (item : VariantA.HistoryItem)
    (h : ∀ it ∈ prev,
      VariantA.toLowerCase it.address ≠ VariantA.toLowerCase item.address) :
    VariantA.addToHistory prev item = item :: prev.take 9 := by
  have hidx := findIndexByAddress_of_not_mem item.address prev h
  rw [VariantA.addToHistory, hidx]
  norm_num

/-- C6: submitting the same address twice (case-insensitively) yields
exactly one history entry for it; the entry keeps its position (here the
front, where the first submission put it) and its report is replaced by the
new result instead of a second entry being appended. -/
theorem C6_history_dedup (prev : List VariantA.HistoryItem)
    (it1 it2 : VariantA.HistoryItem)
    (hnew : ∀ it ∈ prev,
      VariantA.toLowerCase it.address ≠ VariantA.toLowerCase it1.address)
    (hsame : VariantA.toLowerCase it2.address =
      VariantA.toLowerCase it1.address) :
    VariantA.addToHistory (VariantA.addToHistory prev it1) it2 =
      it2 :: prev.take 9 ∧
    (List.filter
      (fun it => VariantA.toLowerCase it.address ==
        VariantA.toLowerCase it2.address)
      (VariantA.addToHistory (VariantA.addToHistory prev it1) it2)).length
      = 1 := by
  have h1 : VariantA.addToHistory prev it1 = it1 :: prev.take 9 :=
    addToHistory_of_not_mem prev it1 hnew
  have hbeq : (VariantA.toLowerCase it1.address ==
      VariantA.toLowerCase it2.address) = true := by
    simp [hsame]
  have hfind : VariantA.findIndexByAddress it2.address (it1 :: prev.take 9)
      = 0 := by
    simp [VariantA.findIndexByAddress, hbeq]
  have h2 : VariantA.addToHistory (it1 :: prev.take 9) it2 =
      it2 :: prev.take 9 := by
    rw [VariantA.addToHistory, hfind]
    norm_num
  have hmain : VariantA.addToHistory (VariantA.addToHistory prev it1) it2 =
      it2 :: prev.take 9 := by rw [h1, h2]
  refine ⟨hmain, ?_⟩
  rw [hmain]
  have hnil : List.filter
      (fun it => VariantA.toLowerCase it.address ==
        VariantA.toLowerCase it2.address) (prev.take 9) = [] := by
    rw [List.filter_eq_nil_iff]
    intro it hit
    have := hnew it (List.mem_of_mem_take hit)
    simp [hsame, this]
  simp [List.filter_cons, hnil]

theorem C6_history_dedup_witness :
    VariantA.addToHistory
      (VariantA.addToHistory []
        ⟨"0xAB", ⟨1, 1⟩, 0⟩)
      ⟨"0xab", ⟨2, 2⟩, 5⟩ =
      (⟨"0xab", ⟨2, 2⟩, 5⟩ : VariantA.HistoryItem) ::
        ([] : List VariantA.HistoryItem).take 9 ∧
    (List.filter
      (fun it => VariantA.toLowerCase it.address ==
        VariantA.toLowerCase "0xab")
      (VariantA.addToHistory
        (VariantA.addToHistory []
          ⟨"0xAB", ⟨1, 1⟩, 0⟩)
        ⟨"0xab", ⟨2, 2⟩, 5⟩)).length = 1 :=
  C6_history_dedup [] ⟨"0xAB", ⟨1, 1⟩, 0⟩ ⟨"0xab", ⟨2, 2⟩, 5⟩
    (by simp) (by decide)

/-- Helper: submitting pairwise-distinct addresses to an empty history
keeps the 10 most recent, most recent first. -/
theorem submitAll_distinct (items : List VariantA.HistoryItem)
    (hdist : items.Pairwise (fun a b =>
      VariantA.toLowerCase a.address ≠ VariantA.toLowerCase b.address)) :
    VariantA.submitAll [] items = items.reverse.take 10 := by
  induction items using List.reverseRecOn with
  | nil => rfl
  | append_singleton l a ih =>
    rw [List.pairwise_append] at hdist
    have hl := hdist.1
    have hcross : ∀ b ∈ l,
        VariantA.toLowerCase b.address ≠ VariantA.toLowerCase a.address :=
      fun b hb => hdist.2.2 b hb a (List.mem_singleton_self a)
    have hsub : VariantA.submitAll [] (l ++ [a]) =
        VariantA.addToHistory (VariantA.submitAll [] l) a := by
      simp [VariantA.submitAll, List.foldl_append]
    have hnm : ∀ it ∈ l.reverse.take 10,
        VariantA.toLowerCase it.address ≠ VariantA.toLowerCase a.address :=
      fun it hit => hcross it (List.mem_reverse.mp (List.mem_of_mem_take hit))
    rw [hsub, ih hl, addToHistory_of_not_mem _ _ hnm, List.reverse_append]
    simp [List.take_take]

/-- C7: the history list is most-recent-first and capped at 10: a fresh
address is prepended, and after 11 distinct submissions only the 10 most
recent remain. -/
theorem C7_history_cap (items : List VariantA.HistoryItem)
    (hdist : items.Pairwise (fun a b =>
      VariantA.toLowerCase a.address ≠ VariantA.toLowerCase b.address)) :
    VariantA.submitAll [] items = items.reverse.take 10 ∧
    (items.length = 11 → (VariantA.submitAll [] items).length = 10) := by
  refine ⟨submitAll_distinct items hdist, fun h11 => ?_⟩
  rw [submitAll_distinct items hdist]
  simp [h11]

theorem C7_history_cap_witness :
    VariantA.submitAll [] VariantA.elevenItems =
      VariantA.elevenItems.reverse.take 10 ∧
    (VariantA.elevenItems.length = 11 →
      (VariantA.submitAll [] VariantA.elevenItems).length = 10) :=
  C7_history_cap VariantA.elevenItems (by decide)

/-- C8: each error path (no client, bad address length, empty or absent
bytecode, provider failure) yields a single error message; the address
check fires independently of the provider result, and every error clears
the prior report. -/
theorem C8_error_paths (addrBad addrOk : String)
    (fetch fetch2 : Except String (Option String)) (m : String)
    (hbad : addrBad.length ≠ 42) (hok : addrOk.length = 42) :
    VariantA.getContractSize false addrOk fetch =
      Except.error "No public client found" ∧
    VariantA.getContractSize true addrBad fetch =
      Except.error "Please enter a valid EVM address" ∧
    VariantA.getContractSize true addrBad fetch =
      VariantA.getContractSize true addrBad fetch2 ∧
    VariantA.getContractSize true addrOk (Except.ok (some "0x")) =
      Except.error "No contract found at this address" ∧
    VariantA.getContractSize true addrOk (Except.ok none) =
      Except.error "No contract found at this address" ∧
    VariantA.getContractSize true addrOk (Except.error m) =
      Except.error m ∧
    VariantA.applyOutcome (Except.error m) = (none, some m) := by
  have hoknot : ¬ (addrOk = "" ∨ addrOk.length ≠ 42) := by
    rintro (h | h)
    · rw [h] at hok
      exact absurd hok (by decide)
    · exact h hok
  refine ⟨?_, ?_, ?_, ?_, ?_, ?_, ?_⟩
  · simp [VariantA.getContractSize]
  · simp [VariantA.getContractSize, hbad]
  · simp [VariantA.getContractSize, hbad]
  · simp [VariantA.getContractSize, hoknot]
  · simp [VariantA.getContractSize, hoknot]
  · simp [VariantA.getContractSize, hoknot]
  · rfl

theorem C8_error_paths_witness :
    VariantA.getContractSize false "0xaaaaaaaaaaaaaaaaaaaaaaaaaaaaaaaaaaaaaaaa"
      (Except.ok (some "0x6001")) = Except.error "No public client found" ∧
    VariantA.getContractSize true "0x123" (Except.ok (some "0x6001")) =
      Except.error "Please enter a valid EVM address" ∧
    VariantA.getContractSize true "0x123" (Except.ok (some "0x6001")) =
      VariantA.getContractSize true "0x123" (Except.error "rpc down") ∧
    VariantA.getContractSize true "0xaaaaaaaaaaaaaaaaaaaaaaaaaaaaaaaaaaaaaaaa"
      (Except.ok (some "0x")) =
      Except.error "No contract found at this address" ∧
    VariantA.getContractSize true "0xaaaaaaaaaaaaaaaaaaaaaaaaaaaaaaaaaaaaaaaa"
      (Except.ok none) =
      Except.error "No contract found at this address" ∧
    VariantA.getContractSize true "0xaaaaaaaaaaaaaaaaaaaaaaaaaaaaaaaaaaaaaaaa"
      (Except.error "execution timeout") =
      Except.error "execution timeout" ∧
    VariantA.applyOutcome (Except.error "execution timeout") =
      (none, some "execution timeout") :=
  C8_error_paths "0x123" "0xaaaaaaaaaaaaaaaaaaaaaaaaaaaaaaaaaaaaaaaa"
    (Except.ok (some "0x6001")) (Except.error "rpc down") "execution timeout"
    (by decide) (by decide)

/-- C9: for every accepted bytecode hex string, the reported sizeKB equals
`((length - 2) / 2) / 1024` in both variants. -/
theorem C9_size_formula (addrA addrB codeA codeB : String)
    (dA : VariantA.ContractSizeData) (dB : VariantB.ContractSizeData)
    (hA : VariantA.getContractSize true addrA (Except.ok (some codeA)) =
      Except.ok dA)
    (hB : VariantB.getContractSize true addrB (Except.ok (some codeB)) =
      Except.ok dB) :
    dA.size = ((codeA.length : ℚ) - 2) / 2 / 1024 ∧
    dB.size = ((codeB.length : ℚ) - 2) / 2 / 1024 := by
  constructor
  · by_cases haddr : addrA = "" ∨ addrA.length ≠ 42
    · simp [VariantA.getContractSize, haddr] at hA
    · by_cases hcode : codeA = "" ∨ codeA = "0x"
      · simp [VariantA.getContractSize, haddr, hcode] at hA
      · simp [VariantA.getContractSize, haddr, hcode] at hA
        rw [← hA]
        simp [VariantA.computeSize]
  · by_cases haddr : addrB = "" ∨ addrB.length ≠ 42
    · simp [VariantB.getContractSize, haddr] at hB
    · by_cases hcode : codeB = "" ∨ codeB = "0x"
      · simp [VariantB.getContractSize, haddr, hcode] at hB
      · simp [VariantB.getContractSize, haddr, hcode] at hB
        rw [← hB]
        simp [VariantB.computeSize, VariantB.sizeKBOfLen]

theorem C9_size_formula_witness :
    (VariantA.computeSize ("0xdeadbeef".length)).size =
      (("0xdeadbeef".length : ℚ) - 2) / 2 / 1024 ∧
    (VariantB.computeSize ("0xdeadbeef".length)).size =
      (("0xdeadbeef".length : ℚ) - 2) / 2 / 1024 :=
  C9_size_formula "0xaaaaaaaaaaaaaaaaaaaaaaaaaaaaaaaaaaaaaaaa"
    "0xaaaaaaaaaaaaaaaaaaaaaaaaaaaaaaaaaaaaaaaa" "0xdeadbeef" "0xdeadbeef"
    (VariantA.computeSize ("0xdeadbeef".length))
    (VariantB.computeSize ("0xdeadbeef".length)) rfl rfl

/-- Helper: a 0x-prefixed bytecode other than bare "0x" has strictly
positive sizeKB. -/
theorem sizeKB_pos_of_accepted (code rest : String) (hpre : code = "0x" ++ rest)
    (hne : code ≠ "0x") : 0 < ((code.length : ℚ) - 2) / 2 / 1024 := by
  have hrest : rest ≠ "" := by
    intro hr
    rw [hr] at hpre
    exact hne hpre
  have hrl : 0 < rest.length := by
    cases rest with
    | mk data =>
      cases data with
      | nil => exact absurd rfl hrest
      | cons c cs => simp [String.length]
  have hlen : code.length = 2 + rest.length := by
    rw [hpre, String.length_append]
    norm_num [show ("0x".length = 2) from rfl]
  rw [hlen]
  have : (1 : ℚ) ≤ (rest.length : ℚ) := by exact_mod_cast hrl
  push_cast
  nlinarith

/-- C10: whenever either variant's query pipeline produces a report, its
sizeKB is strictly positive (empty or absent bytecode being rejected
first, and provider bytecode being 0x-prefixed), and in Variant B the
produced report's score exceeds 5 unless the size already lies in the
bands at or above 5KB. -/
theorem C10_report_positive (hasClientA hasClientB : Bool)
    (addressA addressB codeA codeB restA restB : String)
    (dA : VariantA.ContractSizeData) (dB : VariantB.ContractSizeData)
    (hpreA : codeA = "0x" ++ restA) (hpreB : codeB = "0x" ++ restB)
    (hA : VariantA.getContractSize hasClientA addressA
      (Except.ok (some codeA)) = Except.ok dA)
    (hB : VariantB.getContractSize hasClientB addressB
      (Except.ok (some codeB)) = Except.ok dB) :
    0 < dA.size ∧ 0 < dB.size ∧
      (5 < dB.optimizationScore ∨ 5 ≤ dB.size) := by
  have hApos : 0 < dA.size := by
    cases hasClientA with
    | false => simp [VariantA.getContractSize] at hA
    | true =>
    by_cases haddr : addressA = "" ∨ addressA.length ≠ 42
    · simp [VariantA.getContractSize, haddr] at hA
    · by_cases hcode : codeA = "" ∨ codeA = "0x"
      · simp [VariantA.getContractSize, haddr, hcode] at hA
      · simp [VariantA.getContractSize, haddr, hcode] at hA
        rw [← hA]
        have hne : codeA ≠ "0x" := fun hc => hcode (Or.inr hc)
        have hpos := sizeKB_pos_of_accepted codeA restA hpreA hne
        simpa [VariantA.computeSize] using hpos
  refine ⟨hApos, ?_⟩
  cases hasClientB with
  | false => simp [VariantB.getContractSize] at hB
  | true =>
  by_cases haddr : addressB = "" ∨ addressB.length ≠ 42
  · simp [VariantB.getContractSize, haddr] at hB
  · by_cases hcode : codeB = "" ∨ codeB = "0x"
    · simp [VariantB.getContractSize, haddr, hcode] at hB
    · simp [VariantB.getContractSize, haddr, hcode] at hB
      rw [← hB]
      have hne : codeB ≠ "0x" := fun hc => hcode (Or.inr hc)
      have hpos : 0 < (VariantB.computeSize codeB.length).size := by
        have := sizeKB_pos_of_accepted codeB restB hpreB hne
        simpa [VariantB.computeSize, VariantB.sizeKBOfLen] using this
      refine ⟨hpos, ?_⟩
      rcases lt_or_le (VariantB.computeSize codeB.length).size 5 with h5 | h5
      · left
        have hle : (VariantB.computeSize codeB.length).size ≤
            VariantB.lowerLimit := by
          simp only [VariantB.lowerLimit]; linarith
        have hsc : (VariantB.computeSize codeB.length).optimizationScore =
            VariantB.scoreTiny (VariantB.computeSize codeB.length).size := by
          simp only [VariantB.computeSize, VariantB.sizeKBOfLen] at hle h5 ⊢
          simp [VariantB.scorePair, hle, h5]
        rw [hsc, VariantB.scoreTiny]
        linarith
      · exact Or.inr h5

theorem C10_report_positive_witness :
    0 < (VariantA.computeSize ("0x6001".length)).size ∧
    0 < (VariantB.computeSize ("0x6001".length)).size ∧
    (5 < (VariantB.computeSize ("0x6001".length)).optimizationScore ∨
      5 ≤ (VariantB.computeSize ("0x6001".length)).size) :=
  C10_report_positive true true
    "0xaaaaaaaaaaaaaaaaaaaaaaaaaaaaaaaaaaaaaaaa"
    "0xaaaaaaaaaaaaaaaaaaaaaaaaaaaaaaaaaaaaaaaa"
    "0x6001" "0x6001" "6001" "6001"
    (VariantA.computeSize ("0x6001".length))
    (VariantB.computeSize ("0x6001".length)) rfl rfl rfl rfl

end Sizoor
